import Mathlib

/-!
Shallow embedding of the gofile downloader engine found in
src/descargador.py (threaded variant) and src/Seq-V3.py (sequential
variant).  The two files share the Main class almost verbatim; the
embedding below follows descargador.py and notes the one observable
difference of Seq-V3.py (an extra progress emission in the finally
block) where it matters.

Modelling conventions:
* The local filesystem is an association list from path to file size,
  since the engine only ever inspects sizes (skip check, resume offset,
  finalize comparison).
* HTTP traffic is abstracted: a download gets the response the server
  would return for its single GET; tree resolution gets an oracle from
  node id to the JSON payload fields the code reads.
* Python exceptions are explicit values of type PyExc; a try/finally is
  modelled by running the finally step on every path and combining its
  outcome with the pending exception exactly as Python does (an
  exception raised inside the finally block replaces the pending one).
* Floating point arithmetic of the progress computation is modelled in
  the rationals; division by zero (a Python ZeroDivisionError, reachable
  only when a server advertises total size 0 and still streams chunks)
  is the Lean convention x / 0 = 0, and no theorem below enters that
  region.
-/

/-- Local filesystem model: association list from path to size in bytes.
The first binding for a path wins. -/
abbrev Fs := List (String × Nat)

/-- os.path.exists / os.path.isfile / os.path.getsize combined:
the size of the file at a path, if it exists. -/
def fsLookup : Fs → String → Option Nat
  | [], _ => none
  | (q, m) :: rest, p => if q = p then some m else fsLookup rest p

/-- Write a size for a path: update the first binding or insert a new one. -/
def fsSet : Fs → String → Nat → Fs
  | [], p, n => [(p, n)]
  | (q, m) :: rest, p, n => if q = p then (p, n) :: rest else (q, m) :: fsSet rest p n

/-- Delete a path. -/
def fsRemove : Fs → String → Fs
  | [], _ => []
  | (q, m) :: rest, p => if q = p then fsRemove rest p else (q, m) :: fsRemove rest p

/-- Python open(filename, "ab") creates the file empty when it is missing
and leaves it untouched otherwise. -/
def fsTouch (fs : Fs) (p : String) : Fs :=
  match fsLookup fs p with
  | some _ => fs
  | none => fsSet fs p 0

/-- handler.write(chunk) in append mode grows the file by the chunk length. -/
def fsAppend (fs : Fs) (p : String) (c : Nat) : Fs :=
  fsSet fs p ((fsLookup fs p).getD 0 + c)

/-- shutil.move(src, dst): rename src onto dst, silently overwriting dst. -/
def fsMove (fs : Fs) (src dst : String) : Fs :=
  match fsLookup fs src with
  | some n => fsSet (fsRemove fs src) dst n
  | none => fs

/-- One entry of Main._files_link_list, as built by Main._cacheLink:
the joined local path, the display filename and the direct link. -/
structure FileInfo where
  path : String
  filename : String
  link : String
deriving DecidableEq

/-- The fields of the streaming GET response that Main._downloadContent
reads: the status code, the Content-Length header (as a number, when
present), the total parsed from the Content-Range header (the part after
the final "/", when the header is present), the sizes of the chunks
iter_content yields, and whether a network exception interrupts the
stream after those chunks. -/
structure HttpResponse where
  statusCode : Nat
  contentLength : Option Nat
  contentRangeTotal : Option Nat
  chunks : List Nat
  streamEx : Bool
deriving DecidableEq

/-- The one outgoing file request: its url and the value of the Range
header if one was set (the literal "bytes=S-" string). -/
structure Request where
  url : String
  range : Option String
deriving DecidableEq

/-- The Python exceptions the embedded code can raise. -/
inductive PyExc
  | fileNotFoundError
  | typeError
  | attributeError
  | streamError
deriving DecidableEq

/-- How one call of Main._downloadContent terminates: a normal return, or
an exception propagating out of the method. -/
inductive Outcome
  | ok
  | exc (e : PyExc)
deriving DecidableEq

/-- The message_signal emissions of Main._downloadContent.  The
downloading message records the exact rational progress value; the UI
string additionally shows it rounded to one decimal together with a
wall-clock transfer rate, which the model does not track. -/
inductive Msg
  | skipped (filename : String)
  | denied (url : String) (status : Nat)
  | missingSize (url : String) (status : Nat)
  | downloading (filename : String) (progress : ℚ)
  | done (filename : String)
deriving DecidableEq

/-- Everything observable about one Main._downloadContent call: the final
filesystem, the GET request if one was issued, the message stream, the
raw progress values, the ints handed to progress_signal.emit, and the
outcome. -/
structure DlResult where
  fs : Fs
  request : Option Request
  messages : List Msg
  progress : List ℚ
  progressInt : List Int
  outcome : Outcome
deriving DecidableEq

/-- Python int() applied to a nonnegative-or-negative rational: truncation
toward zero. -/
def pyInt (q : ℚ) : Int :=
  if q < 0 then -Int.floor (-q) else Int.floor q

/-- The for-loop over enumerate(response_handler.iter_content(...)) in
Main._downloadContent: for chunk index i of size c it computes
progress = (part_size + i * len(chunk)) / total_size * 100, appends the
chunk to the sidecar, and emits int(progress) and a downloading message.
Returns the filesystem, the raw progress values, the emitted ints and
the messages in order. -/
def streamChunks (filename fname : String) (partSize total : Nat) :
    Fs → Nat → List Nat → Fs × List ℚ × List Int × List Msg
  | fs, _, [] => (fs, [], [], [])
  | fs, i, c :: rest =>
    let prog : ℚ := ((partSize : ℚ) + (i : ℚ) * (c : ℚ)) / (total : ℚ) * 100
    let r := streamChunks filename fname partSize total (fsAppend fs filename c) (i + 1) rest
    (r.1, prog :: r.2.1, pyInt prog :: r.2.2.1, Msg.downloading fname prog :: r.2.2.2)

/-- The sequence of progress values the chunk loop emits, starting at
chunk index i: the value for the chunk of size c at index i is
(partSize + i * c) / total * 100. -/
def progressList (partSize total : Nat) : Nat → List Nat → List ℚ
  | _, [] => []
  | i, c :: rest =>
    ((partSize : ℚ) + (i : ℚ) * (c : ℚ)) / (total : ℚ) * 100 ::
      progressList partSize total (i + 1) rest

/-- The finally block of Main._downloadContent:
if path.getsize(filename) == int(has_size): move and emit Done.
getsize raises FileNotFoundError when the sidecar does not exist, and
int(None) raises TypeError when has_size was never assigned a header
value; an exception raised here replaces any pending exception, and if
the block completes normally a pending exception propagates.
(Seq-V3.py additionally emits progress 100 before the move; only the
move and the Done message are modelled, which both variants share.) -/
def finallyStep (fi : FileInfo) (filename : String) (hasSize : Option Nat)
    (pending : Option PyExc) (fs : Fs) : Fs × List Msg × Outcome :=
  match fsLookup fs filename with
  | none => (fs, [], Outcome.exc PyExc.fileNotFoundError)
  | some sz =>
    match hasSize with
    | none => (fs, [], Outcome.exc PyExc.typeError)
    | some hs =>
      if sz = hs then
        (fsMove fs filename fi.path, [Msg.done fi.filename],
          match pending with
          | some e => Outcome.exc e
          | none => Outcome.ok)
      else
        (fs, [],
          match pending with
          | some e => Outcome.exc e
          | none => Outcome.ok)

/-- The streaming stage of Main._downloadContent once a total size was
obtained: open the sidecar in append mode, iterate the chunks, record a
StreamError-pending exception if the stream is interrupted, then run the
finally block with has_size set. -/
def streamAndFinalize (fs : Fs) (fi : FileInfo) (resp : HttpResponse)
    (filename : String) (partSize total : Nat) :
    Fs × List Msg × List ℚ × List Int × Outcome :=
  let st := streamChunks filename fi.filename partSize total (fsTouch fs filename) 0 resp.chunks
  let pending : Option PyExc :=
    match resp.streamEx with
    | true => some PyExc.streamError
    | false => none
  let fin := finallyStep fi filename (some total) pending st.1
  (fin.1, st.2.2.2 ++ fin.2.1, st.2.1, st.2.2.1, fin.2.2)

/-- The body of the try/finally of Main._downloadContent, entered after
the GET was issued with resume offset part_size:
* validation: status in (403,404,405,500), or 200 expected (part_size
  == 0) and not received, or 206 expected (part_size > 0) and not
  received → emit the Couldn't-download message and return (through the
  finally block, with has_size still None);
* size discovery: Content-Length when part_size == 0 (absent → emit the
  Couldn't-find-the-file-size message and return through the finally
  block), else Content-Range (absent → None.split raises AttributeError,
  no message, straight to the finally block);
* otherwise stream and finalize. -/
def downloadBody (fs : Fs) (fi : FileInfo) (resp : HttpResponse)
    (filename : String) (partSize : Nat) :
    Fs × List Msg × List ℚ × List Int × Outcome :=
  if (resp.statusCode = 403 ∨ resp.statusCode = 404 ∨ resp.statusCode = 405 ∨
      resp.statusCode = 500) ∨
      (partSize = 0 ∧ resp.statusCode ≠ 200) ∨ (0 < partSize ∧ resp.statusCode ≠ 206) then
    let fin := finallyStep fi filename none none fs
    (fin.1, Msg.denied fi.link resp.statusCode :: fin.2.1, [], [], fin.2.2)
  else if partSize = 0 then
    match resp.contentLength with
    | none =>
      let fin := finallyStep fi filename none none fs
      (fin.1, Msg.missingSize fi.link resp.statusCode :: fin.2.1, [], [], fin.2.2)
    | some total => streamAndFinalize fs fi resp filename partSize total
  else
    match resp.contentRangeTotal with
    | none =>
      let fin := finallyStep fi filename none (some PyExc.attributeError) fs
      (fin.1, fin.2.1, [], [], fin.2.2)
    | some total => streamAndFinalize fs fi resp filename partSize total

/-- Main._downloadContent for one task:
* precheck: if the final path exists with size > 0, emit the
  already-exists message and return without any network request;
* probe: the sidecar is task.path + ".part"; if it exists its size is
  the resume offset part_size and a Range: bytes=part_size- header is
  added (note: whenever the sidecar exists, also when its size is 0);
* issue the GET (recorded as the request) and run the try/finally body. -/
def downloadContent (fs : Fs) (fi : FileInfo) (resp : HttpResponse) : DlResult :=
  if 0 < (fsLookup fs fi.path).getD 0 then
    ⟨fs, none, [Msg.skipped fi.filename], [], [], Outcome.ok⟩
  else
    let filename := fi.path ++ ".part"
    let partSize := (fsLookup fs filename).getD 0
    let range : Option String :=
      if (fsLookup fs filename).isSome then
        some ("bytes=" ++ toString partSize ++ "-")
      else none
    let b := downloadBody fs fi resp filename partSize
    ⟨b.1, some ⟨fi.link, range⟩, b.2.1, b.2.2.1, b.2.2.2.1, b.2.2.2.2⟩

/-- Main._sequentialDownloads of Seq-V3.py: a plain for-loop calling
_downloadContent on each task with no surrounding exception handler, so
an exception escaping one task aborts the loop (the 2-second sleep is
not modelled).  Each task is paired with the response its GET would
receive.  The Nat counts how many tasks were attempted. -/
def sequentialDownloads (fs : Fs) :
    List (FileInfo × HttpResponse) → Fs × List Msg × Outcome × Nat
  | [] => (fs, [], Outcome.ok, 0)
  | (fi, r) :: rest =>
    let res := downloadContent fs fi r
    match res.outcome with
    | Outcome.ok =>
      let r2 := sequentialDownloads res.fs rest
      (r2.1, res.messages ++ r2.2.1, r2.2.2.1, r2.2.2.2 + 1)
    | Outcome.exc e => (res.fs, res.messages, Outcome.exc e, 1)

/-- Main._threadedDownloads of descargador.py: every task is submitted to
a ThreadPoolExecutor; an exception inside a task is captured in its
Future and never re-raised, so every task runs.  The claims below apply
it to tasks touching distinct paths, for which the serialized execution
modelled here is observationally the same as any pool interleaving.
The Nat counts how many tasks were executed. -/
def threadedDownloads (fs : Fs) :
    List (FileInfo × HttpResponse) → Fs × List Msg × Nat
  | [] => (fs, [], 0)
  | (fi, r) :: rest =>
    let res := downloadContent fs fi r
    let r2 := threadedDownloads res.fs rest
    (r2.1, res.messages ++ r2.2.1, r2.2.2 + 1)

/-- Python str.split(sep) for a one-character separator, over character
lists: splits at every separator occurrence, keeps empty fields, and
never returns an empty list ("".split("/") == [""]). -/
def pySplit (sep : Char) : List Char → List (List Char)
  | [] => [[]]
  | c :: rest =>
    let r := pySplit sep rest
    if c = sep then [] :: r
    else (c :: r.headD []) :: r.tail

/-- The url handling at the top of Main.__init__:
url.split("/")[-2] must equal "d" or the program dies, and the id is
url.split("/")[-1]; an IndexError (fewer than two fields) also dies.
Negative indices [-1] and [-2] are read off the reversed split. -/
def parseShareUrl (url : List Char) : Option (List Char) :=
  match (pySplit '/' url).reverse with
  | idPart :: marker :: _ => if marker = ['d'] then some idPart else none
  | _ => none

/-- The text after the final separator occurrence in a string. -/
def afterLastSep (sep : Char) (s : List Char) : List Char :=
  (s.reverse.takeWhile (fun c => c != sep)).reverse

/-- The construction order of Main.__init__: the share url is parsed
first and a malformed url dies before Main._getToken, the first network
call, runs.  The token exchange is abstracted as a function from Unit so
that the absence of a network call is expressible as insensitivity to
it. -/
def mainInit (getToken : Unit → String) (url : List Char) :
    Option (List Char × String) :=
  match parseShareUrl url with
  | none => none
  | some id => some (id, getToken ())

/-- Main.__init__ password handling:
self._password = sha256(password.encode()).hexdigest() if password else
None.  A None or empty password is falsy, so it is neither hashed nor
kept; the hashlib digest is abstracted as the function parameter
sha256hex. -/
def initPassword (sha256hex : String → String) (password : Option String) :
    Option String :=
  match password with
  | some p => if p = "" then none else some (sha256hex p)
  | none => none

/-- The content-lookup url of Main._parseLinks before the password query
parameter is considered. -/
def contentUrlBase (id : String) : String :=
  "https://api.gofile.io/contents/" ++ id ++ "?wt=4fd6sg89d7s6&cache=true"

/-- Main._parseLinks url construction: the password query parameter is
appended exactly when the stored (hashed) password is truthy. -/
def contentUrl (id : String) (password : Option String) : String :=
  match password with
  | some p => if p = "" then contentUrlBase id else contentUrlBase id ++ "&password=" ++ p
  | none => contentUrlBase id

/-- One entry of the children map of a folder response, with the fields
Main._parseLinks reads: type (folder or not), code, name and link. -/
structure ChildData where
  isFolder : Bool
  code : String
  name : String
  link : String
deriving DecidableEq

/-- The data field of a content-lookup response, with the fields
Main._parseLinks reads. -/
structure NodeData where
  isFolder : Bool
  name : String
  link : String
  childrenIds : List String
  children : List (String × ChildData)
deriving DecidableEq

/-- The externally visible actions of Main._parseLinks, in order: a
content-lookup GET, a mkdir of a local directory, and the caching of one
download task. -/
inductive REvent
  | apiCall (id : String)
  | mkdirDir (p : String)
  | cached (t : FileInfo)
deriving DecidableEq

/-- Python dict access modelled on an association list. -/
def lookupA {α : Type} : List (String × α) → String → Option α
  | [], _ => none
  | (q, v) :: rest, k => if q = k then some v else lookupA rest k

/-- os.path.join for the relative names the resolver produces. -/
def pathJoin (a b : String) : String := a ++ "/" ++ b

/-- The for-loop over children_ids in Main._parseLinks: look each child
up in the children map (a missing key is a fatal KeyError, modelled as
none), recurse on folder children through the supplied recursion, and
cache file children directly from the map without any further API
call. -/
def parseChildrenWith (recur : String → Option (List FileInfo × List REvent))
    (children : List (String × ChildData)) (cwd : String) :
    List String → Option (List FileInfo × List REvent)
  | [] => some ([], [])
  | cid :: rest =>
    match lookupA children cid with
    | none => none
    | some ch =>
      let head :=
        if ch.isFolder then recur ch.code
        else
          let t : FileInfo := ⟨pathJoin cwd ch.name, ch.name, ch.link⟩
          some ([t], [REvent.cached t])
      match head, parseChildrenWith recur children cwd rest with
      | some (ts1, es1), some (ts2, es2) => some (ts1 ++ ts2, es1 ++ es2)
      | _, _ => none

/-- Main._parseLinks: fetch the node (a non-ok response dies, modelled as
none), and for a folder create a local directory named after it, descend
into it, walk the children in children_ids order, then ascend; for a
file cache one task in the current directory.  The process-wide chdir of
the source is the explicit cwd parameter (the walk is strictly
sequential, so the two are equivalent); fuel bounds the recursion depth
and none on fuel exhaustion never occurs for the finite trees considered
here. -/
def parseLinks (oracle : List (String × NodeData)) :
    Nat → String → String → Option (List FileInfo × List REvent)
  | 0, _, _ => none
  | fuel + 1, cwd, id =>
    match lookupA oracle id with
    | none => none
    | some data =>
      if data.isFolder then
        let cwd2 := pathJoin cwd data.name
        match parseChildrenWith (fun c => parseLinks oracle fuel cwd2 c)
            data.children cwd2 data.childrenIds with
        | none => none
        | some (ts, es) => some (ts, REvent.apiCall id :: REvent.mkdirDir cwd2 :: es)
      else
        let t : FileInfo := ⟨pathJoin cwd data.name, data.name, data.link⟩
        some ([t], [REvent.apiCall id, REvent.cached t])

/-- Concrete fixture: a task with final path "f". -/
def taskF : FileInfo := ⟨"f", "f", "http://u"⟩

/-- Concrete fixture: a task with final path "g". -/
def taskG : FileInfo := ⟨"g", "g", "http://v"⟩

/-- Concrete fixture: a permanent-denial response (HTTP 403). -/
def respDenied : HttpResponse := ⟨403, none, none, [], false⟩

/-- Concrete fixture: a 200 response advertising and delivering 2 bytes. -/
def respOk2 : HttpResponse := ⟨200, some 2, none, [2], false⟩

/-- Concrete fixture: the sequential run of a denied task (with a
pre-existing one-byte sidecar) followed by a healthy task. -/
def c3SeqRun : Fs × List Msg × Outcome × Nat :=
  sequentialDownloads [("f.part", 1)] [(taskF, respDenied), (taskG, respOk2)]

/-- Concrete fixture: the threaded run of the same two tasks. -/
def c3ThrRun : Fs × List Msg × Nat :=
  threadedDownloads [("f.part", 1)] [(taskF, respDenied), (taskG, respOk2)]

/-- Concrete fixture: a remote folder whose two file children carry the
same name "a.txt" under different ids and links. -/
def c9Oracle : List (String × NodeData) :=
  [("root0", ⟨true, "R", "", ["c1", "c2"],
    [("c1", ⟨false, "", "a.txt", "https://l1"⟩),
     ("c2", ⟨false, "", "a.txt", "https://l2"⟩)]⟩)]

/-- The first task the collision tree resolves to. -/
def c9Task1 : FileInfo := ⟨"/dl/R/a.txt", "a.txt", "https://l1"⟩

/-- The second task the collision tree resolves to: same local path,
different remote link. -/
def c9Task2 : FileInfo := ⟨"/dl/R/a.txt", "a.txt", "https://l2"⟩

/-- The event trace of resolving the collision tree. -/
def c9Events : List REvent :=
  [REvent.apiCall "root0", REvent.mkdirDir "/dl/R",
   REvent.cached c9Task1, REvent.cached c9Task2]

/-- Looking up the path just written. -/
theorem fsLookup_fsSet_self (fs : Fs) (p : String) (n : Nat) :
    fsLookup (fsSet fs p n) p = some n := by
  induction fs with
  | nil => simp [fsSet, fsLookup]
  | cons hd tl ih =>
    obtain ⟨q, m⟩ := hd
    by_cases h : q = p
    · simp [fsSet, fsLookup, h]
    · simp [fsSet, fsLookup, h, ih]

/-- Writing one path leaves the others unchanged. -/
theorem fsLookup_fsSet_ne (fs : Fs) {p q : String} (h : q ≠ p) (n : Nat) :
    fsLookup (fsSet fs p n) q = fsLookup fs q := by
  induction fs with
  | nil => simp [fsSet, fsLookup, Ne.symm h]
  | cons hd tl ih =>
    obtain ⟨a, m⟩ := hd
    by_cases ha : a = p
    · subst ha
      simp [fsSet, fsLookup, Ne.symm h]
    · simp [fsSet, fsLookup, ha, ih]

/-- Looking up a removed path. -/
theorem fsLookup_fsRemove_self (fs : Fs) (p : String) :
    fsLookup (fsRemove fs p) p = none := by
  induction fs with
  | nil => simp [fsRemove, fsLookup]
  | cons hd tl ih =>
    obtain ⟨q, m⟩ := hd
    by_cases h : q = p <;> simp [fsRemove, fsLookup, h, ih]

/-- Removing one path leaves the others unchanged. -/
theorem fsLookup_fsRemove_ne (fs : Fs) {p q : String} (h : q ≠ p) :
    fsLookup (fsRemove fs p) q = fsLookup fs q := by
  induction fs with
  | nil => simp [fsRemove]
  | cons hd tl ih =>
    obtain ⟨a, m⟩ := hd
    by_cases ha : a = p
    · subst ha
      simp [fsRemove, fsLookup, Ne.symm h, ih]
    · simp [fsRemove, fsLookup, ha, ih]

/-- After opening in append mode the file exists, with its old size or 0. -/
theorem fsLookup_fsTouch_self (fs : Fs) (p : String) :
    fsLookup (fsTouch fs p) p = some ((fsLookup fs p).getD 0) := by
  unfold fsTouch
  cases h : fsLookup fs p with
  | none => simp [h, fsLookup_fsSet_self]
  | some n => simp [h]

/-- Appending to the file makes its size grow by the chunk length. -/
theorem fsLookup_fsAppend_self (fs : Fs) (p : String) (c : Nat) :
    fsLookup (fsAppend fs p c) p = some ((fsLookup fs p).getD 0 + c) := by
  unfold fsAppend
  exact fsLookup_fsSet_self fs p _

/-- Appending to one file leaves the others unchanged. -/
theorem fsLookup_fsAppend_ne (fs : Fs) {p q : String} (h : q ≠ p) (c : Nat) :
    fsLookup (fsAppend fs p c) q = fsLookup fs q := by
  unfold fsAppend
  exact fsLookup_fsSet_ne fs h _

/-- A string is never equal to itself with the ".part" suffix appended. -/
theorem ne_append_part (s : String) : s ≠ s ++ ".part" := by
  intro h
  have hd : s.data = (s ++ ".part").data := congrArg String.data h
  rw [String.data_append] at hd
  have hl := congrArg List.length hd
  simp at hl

/-- The sidecar file grows by exactly the sum of the streamed chunks. -/
theorem streamChunks_fs_lookup (filename fname : String) (S T : Nat) :
    ∀ (chunks : List Nat) (fs : Fs) (i s0 : Nat),
      fsLookup fs filename = some s0 →
      fsLookup (streamChunks filename fname S T fs i chunks).1 filename
        = some (s0 + chunks.sum) := by
  intro chunks
  induction chunks with
  | nil => intro fs i s0 h; simpa [streamChunks] using h
  | cons c rest ih =>
    intro fs i s0 h
    have hap : fsLookup (fsAppend fs filename c) filename = some (s0 + c) := by
      simp [fsLookup_fsAppend_self, h]
    have := ih (fsAppend fs filename c) (i + 1) (s0 + c) hap
    simpa [streamChunks, Nat.add_assoc] using this

/-- The chunk loop emits exactly the progress formula sequence. -/
theorem streamChunks_progress (filename fname : String) (S T : Nat) :
    ∀ (chunks : List Nat) (fs : Fs) (i : Nat),
      (streamChunks filename fname S T fs i chunks).2.1 = progressList S T i chunks := by
  intro chunks
  induction chunks with
  | nil => intro fs i; simp [streamChunks, progressList]
  | cons c rest ih => intro fs i; simp [streamChunks, progressList, ih]

/-- The ints handed to progress_signal are the truncations of the raw
progress values. -/
theorem streamChunks_progressInt (filename fname : String) (S T : Nat) :
    ∀ (chunks : List Nat) (fs : Fs) (i : Nat),
      (streamChunks filename fname S T fs i chunks).2.2.1
        = (progressList S T i chunks).map pyInt := by
  intro chunks
  induction chunks with
  | nil => intro fs i; simp [streamChunks, progressList]
  | cons c rest ih => intro fs i; simp [streamChunks, progressList, ih]

/-- The precheck: an existing final file of positive size short-circuits
the whole method with only an informational message. -/
theorem downloadContent_skip (fs : Fs) (fi : FileInfo) (resp : HttpResponse) (n : Nat)
    (h : fsLookup fs fi.path = some n) (hn : 0 < n) :
    downloadContent fs fi resp = ⟨fs, none, [Msg.skipped fi.filename], [], [], Outcome.ok⟩ := by
  have hpos : 0 < (fsLookup fs fi.path).getD 0 := by
    rw [h]
    simpa using hn
  unfold downloadContent
  rw [if_pos hpos]

/-- When the precheck does not fire, the method issues the GET (with a
Range header exactly when the sidecar exists) and otherwise behaves as
downloadBody. -/
theorem downloadContent_not_skipped (fs : Fs) (fi : FileInfo) (resp : HttpResponse)
    (hpre : ¬ 0 < (fsLookup fs fi.path).getD 0) :
    downloadContent fs fi resp =
      ⟨(downloadBody fs fi resp (fi.path ++ ".part")
          ((fsLookup fs (fi.path ++ ".part")).getD 0)).1,
        some ⟨fi.link,
          if (fsLookup fs (fi.path ++ ".part")).isSome then
            some ("bytes=" ++ toString ((fsLookup fs (fi.path ++ ".part")).getD 0) ++ "-")
          else none⟩,
        (downloadBody fs fi resp (fi.path ++ ".part")
          ((fsLookup fs (fi.path ++ ".part")).getD 0)).2.1,
        (downloadBody fs fi resp (fi.path ++ ".part")
          ((fsLookup fs (fi.path ++ ".part")).getD 0)).2.2.1,
        (downloadBody fs fi resp (fi.path ++ ".part")
          ((fsLookup fs (fi.path ++ ".part")).getD 0)).2.2.2.1,
        (downloadBody fs fi resp (fi.path ++ ".part")
          ((fsLookup fs (fi.path ++ ".part")).getD 0)).2.2.2.2⟩ := by
  unfold downloadContent
  rw [if_neg hpre]

/-- When validation passes and the expected size header is present, the
try body streams and finalizes. -/
theorem downloadBody_stream (fs : Fs) (fi : FileInfo) (resp : HttpResponse)
    (filename : String) (partSize total : Nat)
    (hval : ¬ ((resp.statusCode = 403 ∨ resp.statusCode = 404 ∨ resp.statusCode = 405 ∨
        resp.statusCode = 500) ∨
        (partSize = 0 ∧ resp.statusCode ≠ 200) ∨ (0 < partSize ∧ resp.statusCode ≠ 206)))
    (hsize : (if partSize = 0 then resp.contentLength else resp.contentRangeTotal)
        = some total) :
    downloadBody fs fi resp filename partSize
      = streamAndFinalize fs fi resp filename partSize total := by
  unfold downloadBody
  rw [if_neg hval]
  by_cases h0 : partSize = 0
  · rw [if_pos h0] at hsize ⊢
    rw [hsize]
  · rw [if_neg h0] at hsize ⊢
    rw [hsize]

/-- An uninterrupted stream delivering exactly the missing bytes makes
the finalize step rename the sidecar onto the final path: the final file
has the advertised total size, the sidecar is gone, the method returns
normally, and the emitted progress is the formula sequence. -/
theorem streamAndFinalize_complete (fs : Fs) (fi : FileInfo) (resp : HttpResponse)
    (filename : String) (partSize total : Nat)
    (hgetD : (fsLookup fs filename).getD 0 = partSize)
    (hsum : partSize + resp.chunks.sum = total)
    (hex : resp.streamEx = false)
    (hne : fi.path ≠ filename) :
    fsLookup (streamAndFinalize fs fi resp filename partSize total).1 fi.path = some total ∧
    fsLookup (streamAndFinalize fs fi resp filename partSize total).1 filename = none ∧
    (streamAndFinalize fs fi resp filename partSize total).2.2.2.2 = Outcome.ok ∧
    (streamAndFinalize fs fi resp filename partSize total).2.2.1
      = progressList partSize total 0 resp.chunks ∧
    (streamAndFinalize fs fi resp filename partSize total).2.2.2.1
      = (progressList partSize total 0 resp.chunks).map pyInt := by
  have htouch : fsLookup (fsTouch fs filename) filename = some partSize := by
    rw [fsLookup_fsTouch_self, hgetD]
  have hstream := streamChunks_fs_lookup filename fi.filename partSize total resp.chunks
    (fsTouch fs filename) 0 partSize htouch
  rw [hsum] at hstream
  have hfin : finallyStep fi filename (some total) none
      (streamChunks filename fi.filename partSize total (fsTouch fs filename) 0 resp.chunks).1
      = (fsMove (streamChunks filename fi.filename partSize total
          (fsTouch fs filename) 0 resp.chunks).1 filename fi.path,
        [Msg.done fi.filename], Outcome.ok) := by
    unfold finallyStep
    rw [hstream]
    simp
  have hmove : fsMove (streamChunks filename fi.filename partSize total
      (fsTouch fs filename) 0 resp.chunks).1 filename fi.path
      = fsSet (fsRemove (streamChunks filename fi.filename partSize total
          (fsTouch fs filename) 0 resp.chunks).1 filename) fi.path total := by
    unfold fsMove
    rw [hstream]
  have hsf : streamAndFinalize fs fi resp filename partSize total
      = (fsSet (fsRemove (streamChunks filename fi.filename partSize total
            (fsTouch fs filename) 0 resp.chunks).1 filename) fi.path total,
          (streamChunks filename fi.filename partSize total
            (fsTouch fs filename) 0 resp.chunks).2.2.2 ++ [Msg.done fi.filename],
          (streamChunks filename fi.filename partSize total
            (fsTouch fs filename) 0 resp.chunks).2.1,
          (streamChunks filename fi.filename partSize total
            (fsTouch fs filename) 0 resp.chunks).2.2.1,
          Outcome.ok) := by
    simp only [streamAndFinalize, hex]
    rw [hfin, hmove]
  rw [hsf]
  refine ⟨fsLookup_fsSet_self _ _ _, ?_, rfl, streamChunks_progress _ _ _ _ _ _ _,
    streamChunks_progressInt _ _ _ _ _ _ _⟩
  rw [fsLookup_fsSet_ne _ (Ne.symm hne), fsLookup_fsRemove_self]

/-- A full successful download run: precheck passes, validation passes,
the size header is present, the stream delivers exactly the missing
bytes and is not interrupted.  Then the GET carried a Range header
exactly when the sidecar existed, the final file ends up with the
advertised total size, no sidecar remains, the method returns normally,
and the emitted progress is the formula sequence. -/
theorem downloadContent_success (fs : Fs) (fi : FileInfo) (resp : HttpResponse) (total : Nat)
    (hpre : (fsLookup fs fi.path).getD 0 = 0)
    (hval : ¬ ((resp.statusCode = 403 ∨ resp.statusCode = 404 ∨ resp.statusCode = 405 ∨
        resp.statusCode = 500) ∨
        ((fsLookup fs (fi.path ++ ".part")).getD 0 = 0 ∧ resp.statusCode ≠ 200) ∨
        (0 < (fsLookup fs (fi.path ++ ".part")).getD 0 ∧ resp.statusCode ≠ 206)))
    (hsize : (if (fsLookup fs (fi.path ++ ".part")).getD 0 = 0 then resp.contentLength
        else resp.contentRangeTotal) = some total)
    (hsum : (fsLookup fs (fi.path ++ ".part")).getD 0 + resp.chunks.sum = total)
    (hex : resp.streamEx = false) :
    (downloadContent fs fi resp).request = some ⟨fi.link,
        if (fsLookup fs (fi.path ++ ".part")).isSome then
          some ("bytes=" ++ toString ((fsLookup fs (fi.path ++ ".part")).getD 0) ++ "-")
        else none⟩ ∧
    fsLookup (downloadContent fs fi resp).fs fi.path = some total ∧
    fsLookup (downloadContent fs fi resp).fs (fi.path ++ ".part") = none ∧
    (downloadContent fs fi resp).outcome = Outcome.ok ∧
    (downloadContent fs fi resp).progress
      = progressList ((fsLookup fs (fi.path ++ ".part")).getD 0) total 0 resp.chunks ∧
    (downloadContent fs fi resp).progressInt
      = (progressList ((fsLookup fs (fi.path ++ ".part")).getD 0) total 0 resp.chunks).map
          pyInt := by
  have hpre' : ¬ 0 < (fsLookup fs fi.path).getD 0 := by
    rw [hpre]
    exact lt_irrefl 0
  have hdc := downloadContent_not_skipped fs fi resp hpre'
  have hb := downloadBody_stream fs fi resp (fi.path ++ ".part")
    ((fsLookup fs (fi.path ++ ".part")).getD 0) total hval hsize
  have hsf := streamAndFinalize_complete fs fi resp (fi.path ++ ".part")
    ((fsLookup fs (fi.path ++ ".part")).getD 0) total rfl hsum hex (ne_append_part fi.path)
  rw [hdc, hb]
  exact ⟨rfl, hsf.1, hsf.2.1, hsf.2.2.1, hsf.2.2.2.1, hsf.2.2.2.2⟩

/-- Truncation bounds: int() of a progress value between 0 and 100 stays
between 0 and 100. -/
theorem pyInt_bounds (q : ℚ) (h0 : 0 ≤ q) (h1 : q ≤ 100) :
    0 ≤ pyInt q ∧ pyInt q ≤ 100 := by
  have hq : ¬ q < 0 := not_lt.mpr h0
  unfold pyInt
  rw [if_neg hq]
  constructor
  · exact Int.le_floor.mpr (by exact_mod_cast h0)
  · have : Int.floor q ≤ Int.floor (100 : ℚ) := Int.floor_le_floor h1
    simpa using this

/-- One progress value: if the numerator is at most the total, the value
lies between 0 and 100. -/
theorem progress_value_bounds (x T : Nat) (hT : 0 < T) (hx : x ≤ T) :
    (0 : ℚ) ≤ (x : ℚ) / (T : ℚ) * 100 ∧ (x : ℚ) / (T : ℚ) * 100 ≤ 100 := by
  have hTq : (0 : ℚ) < (T : ℚ) := by exact_mod_cast hT
  have hxq : (x : ℚ) ≤ (T : ℚ) := by exact_mod_cast hx
  constructor
  · positivity
  · have hdiv : (x : ℚ) / (T : ℚ) ≤ 1 := (div_le_one hTq).mpr hxq
    calc (x : ℚ) / (T : ℚ) * 100 ≤ 1 * 100 := by
          exact mul_le_mul_of_nonneg_right hdiv (by norm_num)
      _ = 100 := by norm_num

/-- Every value of the progress formula sequence over uniform chunks with
a final chunk of at most the uniform size lies between 0 and 100. -/
theorem progressList_replicate_bounds (S T c d : Nat) (hdc : d ≤ c) (hT : 0 < T) :
    ∀ (k i0 : Nat), S + (i0 + k) * c + d ≤ T →
      ∀ p ∈ progressList S T i0 (List.replicate k c ++ [d]), 0 ≤ p ∧ p ≤ 100 := by
  intro k
  induction k with
  | zero =>
    intro i0 hk p hp
    simp only [List.replicate, List.nil_append, progressList, List.mem_singleton] at hp
    subst hp
    have hx : S + i0 * d ≤ T := by
      have hmul : i0 * d ≤ i0 * c := mul_le_mul_left' hdc i0
      rw [Nat.add_zero] at hk
      omega
    have := progress_value_bounds (S + i0 * d) T hT hx
    constructor
    · have : ((S + i0 * d : Nat) : ℚ) / (T : ℚ) * 100 = ((S : ℚ) + (i0 : ℚ) * (d : ℚ)) / (T : ℚ) * 100 := by
        push_cast
        ring
      rw [← this]
      exact (progress_value_bounds (S + i0 * d) T hT hx).1
    · have : ((S + i0 * d : Nat) : ℚ) / (T : ℚ) * 100 = ((S : ℚ) + (i0 : ℚ) * (d : ℚ)) / (T : ℚ) * 100 := by
        push_cast
        ring
      rw [← this]
      exact (progress_value_bounds (S + i0 * d) T hT hx).2
  | succ n ih =>
    intro i0 hk p hp
    rw [List.replicate_succ, List.cons_append] at hp
    simp only [progressList, List.mem_cons] at hp
    rcases hp with hp | hp
    · subst hp
      have hx : S + i0 * c ≤ T := by
        have hmul : i0 * c ≤ (i0 + (n + 1)) * c := mul_le_mul_right' (by omega) c
        omega
      have hcast : ((S + i0 * c : Nat) : ℚ) / (T : ℚ) * 100 = ((S : ℚ) + (i0 : ℚ) * (c : ℚ)) / (T : ℚ) * 100 := by
        push_cast
        ring
      constructor
      · rw [← hcast]
        exact (progress_value_bounds (S + i0 * c) T hT hx).1
      · rw [← hcast]
        exact (progress_value_bounds (S + i0 * c) T hT hx).2
    · refine ih (i0 + 1) ?_ p hp
      have heq : i0 + 1 + n = i0 + (n + 1) := by omega
      rw [heq]
      exact hk

/-- Python split never yields an empty list. -/
theorem pySplit_ne_nil (sep : Char) : ∀ s : List Char, pySplit sep s ≠ [] := by
  intro s
  induction s with
  | nil => simp [pySplit]
  | cons c rest ih =>
    by_cases h : c = sep
    · simp [pySplit, h]
    · simp only [pySplit, if_neg h]
      exact fun hc => by
        cases hp : pySplit sep rest with
        | nil => exact ih hp
        | cons a t => rw [hp] at hc; simp at hc

/-- Splitting around one separator occurrence splits the two sides
independently. -/
theorem pySplit_append (sep : Char) :
    ∀ xs ys : List Char,
      pySplit sep (xs ++ sep :: ys) = pySplit sep xs ++ pySplit sep ys := by
  intro xs ys
  induction xs with
  | nil => simp [pySplit]
  | cons c rest ih =>
    by_cases h : c = sep
    · simp [pySplit, h, ih]
    · simp only [List.cons_append, pySplit, if_neg h, List.append_eq]
      rw [ih]
      cases hp : pySplit sep rest with
      | nil => exact absurd hp (pySplit_ne_nil sep rest)
      | cons a t => simp

/-- A separator-free string splits into itself alone. -/
theorem pySplit_no_sep (sep : Char) :
    ∀ s : List Char, sep ∉ s → pySplit sep s = [s] := by
  intro s
  induction s with
  | nil => intro _; simp [pySplit]
  | cons c rest ih =>
    intro hmem
    have hc : ¬ c = sep := fun h => hmem (by simp [h])
    have hrest : sep ∉ rest := fun h => hmem (by simp [h])
    simp [pySplit, hc, ih hrest]

/-- takeWhile of a not-the-separator test consumes exactly the prefix
before the first separator occurrence. -/
theorem takeWhile_until_sep (sep : Char) :
    ∀ l r : List Char, (∀ c ∈ l, c ≠ sep) →
      (l ++ sep :: r).takeWhile (fun c => c != sep) = l := by
  intro l r
  induction l with
  | nil => intro _; simp [List.takeWhile]
  | cons c rest ih =>
    intro h
    have hc : c ≠ sep := h c (by simp)
    have hrest : ∀ x ∈ rest, x ≠ sep := fun x hx => h x (by simp [hx])
    have hb : (c != sep) = true := by simp [hc]
    simp [List.takeWhile, hb, ih hrest]

/-- Claim C1 (code bug): the claim states that the finalize step of
_downloadContent always runs as guaranteed cleanup AND that no exception
propagates out of the method past it, including on early validation
returns and streaming exceptions.  The finally block does always run,
but it evaluates path.getsize(filename) and int(has_size) even on the
early-return paths, so on the code it raises instead: with a 403 denial
and no sidecar the method raises FileNotFoundError (after emitting the
denial message); with a sidecar present it raises TypeError (int(None));
and an exception interrupting the stream of an incomplete transfer is
re-raised past the finalize step, which only leaves the sidecar in
place.  This theorem evaluates the embedded code at those inputs. -/
theorem claim_C1_finalize_raises :
    (downloadContent [] taskF respDenied).outcome = Outcome.exc PyExc.fileNotFoundError ∧
    (downloadContent [] taskF respDenied).messages = [Msg.denied "http://u" 403] ∧
    (downloadContent [("f.part", 1)] taskF respDenied).outcome
      = Outcome.exc PyExc.typeError ∧
    (downloadContent [("f.part", 1)] taskF ⟨206, none, some 3, [1], true⟩).outcome
      = Outcome.exc PyExc.streamError ∧
    fsLookup (downloadContent [("f.part", 1)] taskF ⟨206, none, some 3, [1], true⟩).fs
      "f.part" = some 2 ∧
    fsLookup (downloadContent [("f.part", 1)] taskF ⟨206, none, some 3, [1], true⟩).fs
      "f" = none := by
  decide

/-- Claim C3 (code bug): a permanent-denial response does leave the
sidecar untouched and produces no final file, and the bounded-concurrent
pool (which swallows the exception inside the task's Future) does
proceed to the next task; but under the sequential policy the TypeError
raised by the finalize step propagates out of _downloadContent and
aborts the loop, so the sibling task after the failed one never runs:
the sequential run attempts 1 of 2 tasks and ends in the exception,
while the threaded run executes both and completes the second file. -/
theorem claim_C3_sequential_aborts :
    c3SeqRun.2.2.2 = 1 ∧
    c3SeqRun.2.2.1 = Outcome.exc PyExc.typeError ∧
    fsLookup c3SeqRun.1 "f.part" = some 1 ∧
    fsLookup c3SeqRun.1 "f" = none ∧
    fsLookup c3SeqRun.1 "g" = none ∧
    c3SeqRun.2.1 = [Msg.denied "http://u" 403] ∧
    c3ThrRun.2.2 = 2 ∧
    fsLookup c3ThrRun.1 "f.part" = some 1 ∧
    fsLookup c3ThrRun.1 "f" = none ∧
    fsLookup c3ThrRun.1 "g" = some 2 := by
  decide

/-- Claim C4 (code bug): when the accepted response lacks the size
header the code does not "report and abandon the task without raising".
With no sidecar (S = 0) and a 200 response without Content-Length, the
missing-size message is emitted but the finalize step then raises
FileNotFoundError (the sidecar was never created).  With a sidecar
(S > 0) and a 206 response without Content-Range, None.split raises
AttributeError before any message is emitted, and the finalize step
replaces it with TypeError: no message at all is reported. -/
theorem claim_C4_missing_size_raises :
    (downloadContent [] taskF ⟨200, none, none, [], false⟩).messages
      = [Msg.missingSize "http://u" 200] ∧
    (downloadContent [] taskF ⟨200, none, none, [], false⟩).outcome
      = Outcome.exc PyExc.fileNotFoundError ∧
    (downloadContent [("f.part", 2)] taskF ⟨206, none, none, [], false⟩).messages = [] ∧
    (downloadContent [("f.part", 2)] taskF ⟨206, none, none, [], false⟩).outcome
      = Outcome.exc PyExc.typeError := by
  decide

/-- Claim C2, counterexample: the claim says a Range header is sent
exactly when S > 0 and never when the sidecar is empty; but the code
sets the header whenever the sidecar file exists, so an empty sidecar
(S = 0) still elicits Range: bytes=0-. -/
theorem claim_C2_counterexample :
    fsLookup [("f.part", 0)] (taskF.path ++ ".part") = some 0 ∧
    (downloadContent [("f.part", 0)] taskF respDenied).request
      = some ⟨"http://u", some "bytes=0-"⟩ := by
  decide

/-- Claim C6, counterexample: the claim says download is idempotent
after any completed rename via the skip path; but the skip path requires
size > 0, so after a completed download of a 0-byte file (200 with
Content-Length 0) the rename happens and a re-invocation still issues a
network request instead of skipping. -/
theorem claim_C6_counterexample :
    (downloadContent [] taskF ⟨200, some 0, none, [], false⟩).outcome = Outcome.ok ∧
    (downloadContent [] taskF ⟨200, some 0, none, [], false⟩).messages = [Msg.done "f"] ∧
    fsLookup (downloadContent [] taskF ⟨200, some 0, none, [], false⟩).fs "f" = some 0 ∧
    (downloadContent (downloadContent [] taskF ⟨200, some 0, none, [], false⟩).fs taskF
        ⟨200, some 0, none, [], false⟩).request ≠ none := by
  decide

/-- Claim C7, counterexample: the claim says the emitted percentage
after each chunk equals (S + bytesReceivedSoFar) / totalSize * 100; but
the code computes (S + i * len(chunk_i)) / totalSize * 100 with i the
chunk index and chunk_i the current chunk.  For S = 0, total 3 and
chunks of sizes [2, 1], the second emission is (0 + 1 * 1) / 3 * 100 =
100/3, whereas bytes received so far are 2 before (200/3) or 3 after
(100) writing the chunk — the code's value matches neither reading. -/
theorem claim_C7_counterexample :
    (downloadContent [] taskF ⟨200, some 3, none, [2, 1], false⟩).progress
      = [0, 100 / 3] ∧
    (downloadContent [] taskF ⟨200, some 3, none, [2, 1], false⟩).progress
      ≠ [0, 200 / 3] ∧
    (downloadContent [] taskF ⟨200, some 3, none, [2, 1], false⟩).progress
      ≠ [(200 : ℚ) / 3, 100] := by
  have h := (downloadContent_success [] taskF ⟨200, some 3, none, [2, 1], false⟩ 3
    (by decide) (by decide) (by decide) (by decide) rfl).2.2.2.2.1
  have hp : progressList ((fsLookup [] (taskF.path ++ ".part")).getD 0) 3 0 [2, 1]
      = [0, 100 / 3] := by
    norm_num [progressList, fsLookup]
  rw [hp] at h
  refine ⟨h, ?_, ?_⟩
  · rw [h]
    intro hc
    simp at hc
    norm_num at hc
  · rw [h]
    intro hc
    simp at hc
    norm_num at hc

/-- Claim C9, counterexample: the claim says the resolved task list has
pairwise-distinct local paths; but resolving a folder whose two file
children share the name "a.txt" yields two tasks with the same local
path, so the pairwise-distinctness predicate fails. -/
theorem claim_C9_counterexample :
    parseLinks c9Oracle 1 "/dl" "root0" = some ([c9Task1, c9Task2], c9Events) ∧
    ¬ List.Pairwise (fun a b : FileInfo => a.path ≠ b.path) [c9Task1, c9Task2] := by
  constructor
  · rfl
  · intro h
    have h1 := (List.pairwise_cons.mp h).1 c9Task2 (by simp)
    exact h1 rfl

/-- Claim C9, amended: the task list produced by the resolver need not
have pairwise-distinct local paths — sibling name collisions are not
deduplicated, so two distinct tasks (with different remote links) can
target the same local file. -/
theorem claim_C9_name_collision :
    parseLinks c9Oracle 1 "/dl" "root0" = some ([c9Task1, c9Task2], c9Events) ∧
    c9Task1.path = c9Task2.path ∧
    c9Task1.link ≠ c9Task2.link := by
  refine ⟨rfl, rfl, ?_⟩
  decide

/-- Claim C2, amended: a Range header bytes=S- is sent exactly when the
sidecar file exists (also when it is empty, per the counterexample);
in particular, for a sidecar of size S with 0 < S < totalSize the GET
carries Range: bytes=S-, and if streaming then succeeds (delivering the
missing totalSize - S bytes without interruption) finalize renames the
sidecar so that the final local file has exactly totalSize bytes and no
.part file remains; when no sidecar exists, no Range header is sent. -/
theorem claim_C2_range_resume :
    (∀ (fs : Fs) (fi : FileInfo) (resp : HttpResponse) (S total : Nat),
      (fsLookup fs fi.path).getD 0 = 0 →
      fsLookup fs (fi.path ++ ".part") = some S →
      0 < S → S < total →
      resp.statusCode = 206 →
      resp.contentRangeTotal = some total →
      S + resp.chunks.sum = total →
      resp.streamEx = false →
      (downloadContent fs fi resp).request
        = some ⟨fi.link, some ("bytes=" ++ toString S ++ "-")⟩ ∧
      fsLookup (downloadContent fs fi resp).fs fi.path = some total ∧
      fsLookup (downloadContent fs fi resp).fs (fi.path ++ ".part") = none ∧
      (downloadContent fs fi resp).outcome = Outcome.ok) ∧
    (∀ (fs : Fs) (fi : FileInfo) (resp : HttpResponse),
      (fsLookup fs fi.path).getD 0 = 0 →
      fsLookup fs (fi.path ++ ".part") = none →
      (downloadContent fs fi resp).request = some ⟨fi.link, none⟩) := by
  constructor
  · intro fs fi resp S total hpre hpart hS hlt hstat hcrt hsum hex
    have hgd : (fsLookup fs (fi.path ++ ".part")).getD 0 = S := by
      rw [hpart]
      rfl
    have hval : ¬ ((resp.statusCode = 403 ∨ resp.statusCode = 404 ∨ resp.statusCode = 405 ∨
        resp.statusCode = 500) ∨
        ((fsLookup fs (fi.path ++ ".part")).getD 0 = 0 ∧ resp.statusCode ≠ 200) ∨
        (0 < (fsLookup fs (fi.path ++ ".part")).getD 0 ∧ resp.statusCode ≠ 206)) := by
      rw [hstat, hgd]
      simp
      omega
    have hsize : (if (fsLookup fs (fi.path ++ ".part")).getD 0 = 0 then resp.contentLength
        else resp.contentRangeTotal) = some total := by
      rw [hgd, if_neg (by omega), hcrt]
    have hsum' : (fsLookup fs (fi.path ++ ".part")).getD 0 + resp.chunks.sum = total := by
      rw [hgd]
      exact hsum
    have h := downloadContent_success fs fi resp total hpre hval hsize hsum' hex
    refine ⟨?_, h.2.1, h.2.2.1, h.2.2.2.1⟩
    have hreq := h.1
    rw [hpart] at hreq
    simpa [hgd, hpart] using hreq
  · intro fs fi resp hpre hpart
    have hpre' : ¬ 0 < (fsLookup fs fi.path).getD 0 := by
      rw [hpre]
      exact lt_irrefl 0
    rw [downloadContent_not_skipped fs fi resp hpre']
    simp [hpart]

/-- Witness for claim C2: a one-byte sidecar, a 206 response with
Content-Range total 3 delivering the missing 2 bytes. -/
theorem claim_C2_witness :
    (downloadContent [("f.part", 1)] taskF ⟨206, none, some 3, [2], false⟩).request
      = some ⟨taskF.link, some ("bytes=" ++ toString 1 ++ "-")⟩ ∧
    fsLookup (downloadContent [("f.part", 1)] taskF ⟨206, none, some 3, [2], false⟩).fs
      taskF.path = some 3 ∧
    fsLookup (downloadContent [("f.part", 1)] taskF ⟨206, none, some 3, [2], false⟩).fs
      (taskF.path ++ ".part") = none ∧
    (downloadContent [("f.part", 1)] taskF ⟨206, none, some 3, [2], false⟩).outcome
      = Outcome.ok :=
  claim_C2_range_resume.1 [("f.part", 1)] taskF ⟨206, none, some 3, [2], false⟩ 1 3
    (by decide) (by decide) (by decide) (by decide) rfl rfl (by decide) rfl

/-- Claim C6, amended: a task whose final file exists with size > 0 is
skipped with no network request, an informational message and an
unchanged filesystem; re-invoking download after a completed rename is a
no-op via the skip path provided totalSize > 0 (a completed 0-byte
download is re-attempted, per the counterexample). -/
theorem claim_C6_skip_idempotent :
    (∀ (fs : Fs) (fi : FileInfo) (resp : HttpResponse) (n : Nat),
      fsLookup fs fi.path = some n → 0 < n →
      downloadContent fs fi resp
        = ⟨fs, none, [Msg.skipped fi.filename], [], [], Outcome.ok⟩) ∧
    (∀ (fs : Fs) (fi : FileInfo) (resp resp2 : HttpResponse) (total : Nat),
      fsLookup fs fi.path = none →
      fsLookup fs (fi.path ++ ".part") = none →
      resp.statusCode = 200 →
      resp.contentLength = some total →
      0 < total →
      resp.chunks.sum = total →
      resp.streamEx = false →
      downloadContent (downloadContent fs fi resp).fs fi resp2
        = ⟨(downloadContent fs fi resp).fs, none, [Msg.skipped fi.filename], [], [],
            Outcome.ok⟩) := by
  constructor
  · intro fs fi resp n h hn
    exact downloadContent_skip fs fi resp n h hn
  · intro fs fi resp resp2 total hpath hnopart hstat hcl htot hsum hex
    have hpre : (fsLookup fs fi.path).getD 0 = 0 := by
      rw [hpath]
      rfl
    have hgd : (fsLookup fs (fi.path ++ ".part")).getD 0 = 0 := by
      rw [hnopart]
      rfl
    have hval : ¬ ((resp.statusCode = 403 ∨ resp.statusCode = 404 ∨ resp.statusCode = 405 ∨
        resp.statusCode = 500) ∨
        ((fsLookup fs (fi.path ++ ".part")).getD 0 = 0 ∧ resp.statusCode ≠ 200) ∨
        (0 < (fsLookup fs (fi.path ++ ".part")).getD 0 ∧ resp.statusCode ≠ 206)) := by
      rw [hstat, hgd]
      simp
    have hsize : (if (fsLookup fs (fi.path ++ ".part")).getD 0 = 0 then resp.contentLength
        else resp.contentRangeTotal) = some total := by
      rw [hgd, if_pos rfl, hcl]
    have hsum' : (fsLookup fs (fi.path ++ ".part")).getD 0 + resp.chunks.sum = total := by
      rw [hgd]
      simpa using hsum
    have h := downloadContent_success fs fi resp total hpre hval hsize hsum' hex
    exact downloadContent_skip _ fi resp2 total h.2.1 htot

/-- Witness for claim C6: a pre-existing 5-byte file is skipped, and a
freshly completed 2-byte download is skipped on re-invocation. -/
theorem claim_C6_witness :
    downloadContent [("f", 5)] taskF respDenied
      = ⟨[("f", 5)], none, [Msg.skipped "f"], [], [], Outcome.ok⟩ ∧
    downloadContent (downloadContent [] taskF respOk2).fs taskF respDenied
      = ⟨(downloadContent [] taskF respOk2).fs, none, [Msg.skipped "f"], [], [],
          Outcome.ok⟩ :=
  ⟨claim_C6_skip_idempotent.1 [("f", 5)] taskF respDenied 5 (by decide) (by decide),
   claim_C6_skip_idempotent.2 [] taskF respOk2 respDenied 2 (by decide) (by decide) rfl rfl
     (by decide) (by decide) rfl⟩

/-- Claim C7, amended: after each streamed chunk the emitted percentage
is (S + i * len(chunk_i)) / totalSize * 100, where i is the zero-based
index of the current chunk — this coincides with
(S + bytesReceivedSoFar) / totalSize * 100 only when all earlier chunks
have the current chunk's length (the counterexample shows the two
formulas differ on a shorter final chunk); and for a response whose
chunks are uniform of size c with a final chunk d ≤ c summing to
totalSize - S, every emitted progress value (both the raw rational and
the truncated int handed to the UI) lies between 0 and 100. -/
theorem claim_C7_progress_formula :
    ∀ (fs : Fs) (fi : FileInfo) (resp : HttpResponse) (S total k c d : Nat),
      (fsLookup fs fi.path).getD 0 = 0 →
      fsLookup fs (fi.path ++ ".part") = some S →
      resp.statusCode = (if S = 0 then 200 else 206) →
      resp.contentLength = some total →
      resp.contentRangeTotal = some total →
      resp.chunks = List.replicate k c ++ [d] →
      0 < d → d ≤ c →
      S + k * c + d = total →
      resp.streamEx = false →
      (downloadContent fs fi resp).progress = progressList S total 0 resp.chunks ∧
      (downloadContent fs fi resp).progressInt
        = (progressList S total 0 resp.chunks).map pyInt ∧
      (∀ p ∈ (downloadContent fs fi resp).progress, 0 ≤ p ∧ p ≤ 100) ∧
      (∀ v ∈ (downloadContent fs fi resp).progressInt, 0 ≤ v ∧ v ≤ 100) := by
  intro fs fi resp S total k c d hpre hpart hstat hcl hcrt hchunks hd hdc hsum hex
  have hgd : (fsLookup fs (fi.path ++ ".part")).getD 0 = S := by
    rw [hpart]
    rfl
  have htot : 0 < total := by omega
  have hval : ¬ ((resp.statusCode = 403 ∨ resp.statusCode = 404 ∨ resp.statusCode = 405 ∨
      resp.statusCode = 500) ∨
      ((fsLookup fs (fi.path ++ ".part")).getD 0 = 0 ∧ resp.statusCode ≠ 200) ∨
      (0 < (fsLookup fs (fi.path ++ ".part")).getD 0 ∧ resp.statusCode ≠ 206)) := by
    rw [hstat, hgd]
    by_cases hS0 : S = 0
    · simp [hS0]
    · simp [hS0]
  have hsize : (if (fsLookup fs (fi.path ++ ".part")).getD 0 = 0 then resp.contentLength
      else resp.contentRangeTotal) = some total := by
    rw [hgd]
    by_cases hS0 : S = 0
    · rw [if_pos hS0, hcl]
    · rw [if_neg hS0, hcrt]
  have hsum' : (fsLookup fs (fi.path ++ ".part")).getD 0 + resp.chunks.sum = total := by
    rw [hgd, hchunks]
    have hrep : (List.replicate k c).sum = k * c := by
      simp [List.sum_replicate, smul_eq_mul]
    simp [List.sum_append, hrep]
    omega
  have h := downloadContent_success fs fi resp total hpre hval hsize hsum' hex
  have hprog : (downloadContent fs fi resp).progress = progressList S total 0 resp.chunks := by
    rw [h.2.2.2.2.1, hgd]
  have hprogInt : (downloadContent fs fi resp).progressInt
      = (progressList S total 0 resp.chunks).map pyInt := by
    rw [h.2.2.2.2.2, hgd]
  have hbounds : ∀ p ∈ (downloadContent fs fi resp).progress, 0 ≤ p ∧ p ≤ 100 := by
    rw [hprog, hchunks]
    refine progressList_replicate_bounds S total c d hdc htot k 0 ?_
    rw [Nat.zero_add]
    omega
  refine ⟨hprog, hprogInt, hbounds, ?_⟩
  intro v hv
  rw [hprogInt, ← hprog] at hv
  obtain ⟨p, hp, rfl⟩ := List.mem_map.mp hv
  exact pyInt_bounds p (hbounds p hp).1 (hbounds p hp).2

/-- Witness for claim C7: a one-byte sidecar resumed with a 206 response
streaming chunks [2, 1] toward a total of 4. -/
theorem claim_C7_witness :
    (downloadContent [("f.part", 1)] taskF ⟨206, some 4, some 4, [2, 1], false⟩).progress
      = progressList 1 4 0 [2, 1] ∧
    (downloadContent [("f.part", 1)] taskF ⟨206, some 4, some 4, [2, 1], false⟩).progressInt
      = (progressList 1 4 0 [2, 1]).map pyInt :=
  ⟨(claim_C7_progress_formula [("f.part", 1)] taskF ⟨206, some 4, some 4, [2, 1], false⟩
      1 4 1 2 1 (by decide) (by decide) (by decide) rfl rfl (by decide) (by decide)
      (by decide) (by decide) rfl).1,
   (claim_C7_progress_formula [("f.part", 1)] taskF ⟨206, some 4, some 4, [2, 1], false⟩
      1 4 1 2 1 (by decide) (by decide) (by decide) rfl rfl (by decide) (by decide)
      (by decide) (by decide) rfl).2.1⟩

/-- Claim C5 (confirmed): for every share URL of the form .../d/<id>
(with a slash-free id), parsing extracts the id, which is exactly the
text after the final slash; and for every URL whose path segment
preceding the trailing identifier is not the marker "d", the input is
rejected (parse yields none) and session construction returns the same
rejection whatever the token network call would return — i.e. before
any network call. -/
theorem claim_C5_url_parsing :
    (∀ pre id : List Char, '/' ∉ id →
      parseShareUrl (pre ++ '/' :: 'd' :: '/' :: id) = some id ∧
      afterLastSep '/' (pre ++ '/' :: 'd' :: '/' :: id) = id) ∧
    (∀ (url idPart marker : List Char) (rest : List (List Char)),
      (pySplit '/' url).reverse = idPart :: marker :: rest →
      marker ≠ ['d'] →
      parseShareUrl url = none ∧
      ∀ g1 g2 : Unit → String, mainInit g1 url = none ∧ mainInit g1 url = mainInit g2 url) := by
  constructor
  · intro pre id hid
    have hd1 : pySplit '/' ['d'] = [['d']] := by decide
    have hsplit : pySplit '/' (pre ++ '/' :: 'd' :: '/' :: id)
        = pySplit '/' pre ++ [['d'], id] := by
      have h1 : pre ++ '/' :: 'd' :: '/' :: id = pre ++ '/' :: (['d'] ++ '/' :: id) := by
        simp
      rw [h1, pySplit_append, pySplit_append '/' ['d'] id, pySplit_no_sep '/' id hid, hd1]
      simp
    constructor
    · unfold parseShareUrl
      rw [hsplit, List.reverse_append]
      simp
    · unfold afterLastSep
      have hrev : (pre ++ '/' :: 'd' :: '/' :: id).reverse
          = id.reverse ++ '/' :: ('d' :: '/' :: pre.reverse) := by
        simp
      rw [hrev, takeWhile_until_sep '/' id.reverse ('d' :: '/' :: pre.reverse)
        (fun c hc => fun he => hid (List.mem_reverse.mp (he ▸ hc)))]
      simp
  · intro url idPart marker rest hrev hmark
    have hnone : parseShareUrl url = none := by
      unfold parseShareUrl
      rw [hrev]
      simp [hmark]
    refine ⟨hnone, fun g1 g2 => ⟨?_, ?_⟩⟩
    · unfold mainInit
      rw [hnone]
    · unfold mainInit
      rw [hnone]

/-- Witness for claim C5: a well-formed share url is parsed to its id,
and a url with marker "x" instead of "d" is rejected identically under
two different token oracles. -/
theorem claim_C5_witness :
    parseShareUrl ("https://gofile.io".toList ++ '/' :: 'd' :: '/' :: "a1b2".toList)
      = some ("a1b2".toList) ∧
    mainInit (fun _ => "tokA") ("https://gofile.io/x/a1b2".toList)
      = mainInit (fun _ => "tokB") ("https://gofile.io/x/a1b2".toList) :=
  ⟨(claim_C5_url_parsing.1 ("https://gofile.io".toList) ("a1b2".toList) (by decide)).1,
   ((claim_C5_url_parsing.2 ("https://gofile.io/x/a1b2".toList) ("a1b2".toList) ("x".toList)
      ["gofile.io".toList, "".toList, "https:".toList] (by decide) (by decide)).2
      (fun _ => "tokA") (fun _ => "tokB")).2⟩

/-- Claim C8 (confirmed): resolving a folder whose children are, in
childrenIds order, a file F1 and a subfolder D1 containing a file F2,
yields the task list exactly in order [F1, D1/F2]; the event trace shows
the depth-first order: the root lookup, mkdir of the root folder,
caching of F1, then the lookup of D1, mkdir of <root>/D1, and only then
the caching of F2 — the local directory is created before F2 is
resolved. -/
theorem claim_C8_dfs_order :
    ∀ (cwd rootId d1code f1id d1cid f2id rootName d1name f1name f2name f1link f2link :
        String),
      rootId ≠ d1code →
      f1id ≠ d1cid →
      parseLinks
        [(rootId, ⟨true, rootName, "", [f1id, d1cid],
            [(f1id, ⟨false, "", f1name, f1link⟩), (d1cid, ⟨true, d1code, d1name, ""⟩)]⟩),
         (d1code, ⟨true, d1name, "", [f2id], [(f2id, ⟨false, "", f2name, f2link⟩)]⟩)]
        2 cwd rootId
      = some
        ([⟨pathJoin (pathJoin cwd rootName) f1name, f1name, f1link⟩,
          ⟨pathJoin (pathJoin (pathJoin cwd rootName) d1name) f2name, f2name, f2link⟩],
         [REvent.apiCall rootId,
          REvent.mkdirDir (pathJoin cwd rootName),
          REvent.cached ⟨pathJoin (pathJoin cwd rootName) f1name, f1name, f1link⟩,
          REvent.apiCall d1code,
          REvent.mkdirDir (pathJoin (pathJoin cwd rootName) d1name),
          REvent.cached ⟨pathJoin (pathJoin (pathJoin cwd rootName) d1name) f2name,
            f2name, f2link⟩]) := by
  intro cwd rootId d1code f1id d1cid f2id rootName d1name f1name f2name f1link f2link h1 h2
  show parseLinks _ (0 + 1 + 1) cwd rootId = _
  simp [parseLinks, parseChildrenWith, lookupA, h1, h2]

/-- Witness for claim C8: the concrete two-level tree. -/
theorem claim_C8_witness :
    parseLinks
      [("rid", ⟨true, "R", "", ["i1", "i2"],
          [("i1", ⟨false, "", "F1", "l1"⟩), ("i2", ⟨true, "d1c", "D1", ""⟩)]⟩),
       ("d1c", ⟨true, "D1", "", ["i3"], [("i3", ⟨false, "", "F2", "l2"⟩)]⟩)]
      2 "/dl" "rid"
    = some
      ([⟨pathJoin (pathJoin "/dl" "R") "F1", "F1", "l1"⟩,
        ⟨pathJoin (pathJoin (pathJoin "/dl" "R") "D1") "F2", "F2", "l2"⟩],
       [REvent.apiCall "rid",
        REvent.mkdirDir (pathJoin "/dl" "R"),
        REvent.cached ⟨pathJoin (pathJoin "/dl" "R") "F1", "F1", "l1"⟩,
        REvent.apiCall "d1c",
        REvent.mkdirDir (pathJoin (pathJoin "/dl" "R") "D1"),
        REvent.cached ⟨pathJoin (pathJoin (pathJoin "/dl" "R") "D1") "F2", "F2", "l2"⟩]) :=
  claim_C8_dfs_order "/dl" "rid" "d1c" "i1" "i2" "i3" "R" "D1" "F1" "F2" "l1" "l2"
    (by decide) (by decide)

/-- Claim C10 (confirmed): an empty (or absent) password is treated as
no password — the stored value is None independently of the hash
function (so nothing is hashed) and no password query parameter is
appended to the content-lookup url; a non-empty password is stored and
transmitted only as its digest sha256hex(p), appended as the value of
the password query parameter. -/
theorem claim_C10_password :
    (∀ (h1 h2 : String → String) (id : String),
      initPassword h1 none = none ∧
      initPassword h1 (some "") = none ∧
      initPassword h1 (some "") = initPassword h2 (some "") ∧
      contentUrl id (initPassword h1 none) = contentUrlBase id ∧
      contentUrl id (initPassword h1 (some "")) = contentUrlBase id) ∧
    (∀ (h : String → String) (id p : String), p ≠ "" → h p ≠ "" →
      initPassword h (some p) = some (h p) ∧
      contentUrl id (initPassword h (some p)) = contentUrlBase id ++ "&password=" ++ h p) := by
  constructor
  · intro h1 h2 id
    refine ⟨rfl, rfl, rfl, rfl, rfl⟩
  · intro h id p hp hhp
    constructor
    · simp [initPassword, hp]
    · simp [initPassword, contentUrl, hp, hhp]

/-- Witness for claim C10: a concrete non-empty password under a
concrete injectively-tagged hash function. -/
theorem claim_C10_witness :
    initPassword (fun s => s ++ "#digest") (some "pw") = some "pw#digest" ∧
    contentUrl "X" (initPassword (fun s => s ++ "#digest") (some "pw"))
      = contentUrlBase "X" ++ "&password=" ++ "pw#digest" :=
  ⟨(claim_C10_password.2 (fun s => s ++ "#digest") "X" "pw" (by decide) (by decide)).1,
   (claim_C10_password.2 (fun s => s ++ "#digest") "X" "pw" (by decide) (by decide)).2⟩
